import Mathlib

/-!
Verification of the event-sourced submission core of arxiv-submission-core.

The definitions below are a shallow embedding of the Python sources:
  * `src/core/arxiv/submission/domain/submission.py` (aggregate, derived
    views, compilation reconstruction),
  * `src/core/arxiv/submission/domain/event/request.py` (request workflow
    events),
  * `src/core/arxiv/submission/core.py` (the `save` command handler).
Timestamps are modelled as `Nat`, agents as their string identifiers, and
Python dicts as insertion-ordered association lists.  sha1-digest based
identifiers are modelled by injective string encodings of the digested
fields.  Fallible code returns `Except`/explicit result types.
-/

/-- Agents are identified by their `agent_identifier` string
(`domain/agent.py` is summarised by its identifier here). -/
abbrev Agent := String

/-- A classification, from `domain/meta.py` (only the `category` field is
used by the embedded code). -/
structure Classification where
  category : String
deriving DecidableEq

/-- A license, from `domain/meta.py` (fields only; never inspected). -/
structure License where
  uri : String
  name : String
deriving DecidableEq

/-- An author of a submission (`submission.py`, class `Author`; the
identifier/display auto-generation is not needed by any claim). -/
structure Author where
  order : Nat := 0
  forename : String := ""
  surname : String := ""
  initials : String := ""
  affiliation : String := ""
  email : String := ""
  identifier : Option String := none
  display : Option String := none
deriving DecidableEq

/-- Metadata about a submission (`submission.py`, class
`SubmissionMetadata`). -/
structure SubmissionMetadata where
  title : Option String := none
  abstract : Option String := none
  authors : List Author := []
  authors_display : String := ""
  doi : Option String := none
  msc_class : Option String := none
  acm_class : Option String := none
  report_num : Option String := none
  journal_ref : Option String := none
  comments : String := ""
deriving DecidableEq

/-- Metadata about the submission source package (`submission.py`, class
`SubmissionContent`); the source format enum is carried as its string
code. -/
structure SubmissionContent where
  identifier : String
  checksum : String
  size : Nat
  source_format : String := ""
deriving DecidableEq

/-- Delegation of editing privileges (`submission.py`, class
`Delegation`). -/
structure Delegation where
  delegate : Agent
  creator : Agent
  created : Nat
deriving DecidableEq

/-- A block on announcement (`submission.py`, class `Hold`). -/
structure Hold where
  event_id : String
  creator : Agent
  created : Nat
  hold_type : String := ""
  hold_reason : Option String := none
deriving DecidableEq

/-- Modelled from the spec: proposals are a keyed collection owned by the
submission (`domain/proposal.py` is not among the sources); no claim
inspects their contents. -/
structure Proposal where
  creator : Agent
  created : Nat
deriving DecidableEq

/-- Modelled from the spec: quality-control annotations, a keyed collection
(`domain/annotation.py` is not among the sources); no claim inspects their
contents. -/
structure Annotation where
  creator : Agent
  created : Nat
deriving DecidableEq

/-- Modelled from the spec: quality-control flags, a keyed collection
(`domain/flag.py` is not among the sources); no claim inspects their
contents.  Named `QCFlag` because `Flag` already exists in the library. -/
structure QCFlag where
  creator : Agent
  created : Nat
deriving DecidableEq

/-- Modelled from the spec: moderation comments, a keyed collection; no
claim inspects their contents. -/
structure ModComment where
  creator : Agent
  created : Nat
deriving DecidableEq

/-- `UserRequest.PENDING` -/
def UserRequest.PENDING : String := "pending"

/-- `UserRequest.REJECTED` -/
def UserRequest.REJECTED : String := "rejected"

/-- `UserRequest.APPROVED` -/
def UserRequest.APPROVED : String := "approved"

/-- `UserRequest.APPLIED` -/
def UserRequest.APPLIED : String := "applied"

/-- A user request (`submission.py`, class `UserRequest` and its two
subclasses, flattened with a `request_type` tag holding the Python class
name, which is what `request_type` returns there). -/
structure UserRequest where
  request_type : String
  creator : Agent
  created : Nat
  updated : Nat
  status : String := UserRequest.PENDING
  reason_for_withdrawal : Option String := none
  classifications : List Classification := []
deriving DecidableEq

/-- `UserRequest.generate_request_id`: the sha1 digest of
`created:request_type:creator` is modelled by the injective plain
encoding of the same fields. -/
def UserRequest.generate_request_id (created : Nat) (request_type : String)
    (creator : Agent) : String :=
  toString created ++ ":" ++ request_type ++ ":" ++ creator

/-- `UserRequest.request_id` (property). -/
def UserRequest.request_id (r : UserRequest) : String :=
  UserRequest.generate_request_id r.created r.request_type r.creator

/-- `UserRequest.is_pending` -/
def UserRequest.is_pending (r : UserRequest) : Bool :=
  r.status == UserRequest.PENDING

/-- `UserRequest.is_approved` -/
def UserRequest.is_approved (r : UserRequest) : Bool :=
  r.status == UserRequest.APPROVED

/-- `UserRequest.is_applied` -/
def UserRequest.is_applied (r : UserRequest) : Bool :=
  r.status == UserRequest.APPLIED

/-- `UserRequest.is_rejected` -/
def UserRequest.is_rejected (r : UserRequest) : Bool :=
  r.status == UserRequest.REJECTED

/-- `UserRequest.is_active` -/
def UserRequest.is_active (r : UserRequest) : Bool :=
  r.is_pending || r.is_approved

/-- Modelled from the spec: `ProcessStatus.Process` kinds
(`domain/process.py` is not among the sources; the embedded code from
`submission.py` only distinguishes `COMPILATION` from the rest). -/
inductive ProcessStatus.Process where
  | compilation
  | plain_text_extraction
  | classification
deriving DecidableEq

/-- Modelled from the spec: `ProcessStatus.Status` values. -/
inductive ProcessStatus.Status where
  | requested
  | succeeded
  | failed
deriving DecidableEq

/-- Modelled from the spec: a timestamped record of an external process's
status (`domain/process.py` is not among the sources; fields are exactly
those the code in `submission.py` reads). -/
structure ProcessStatus where
  creator : Agent
  created : Nat
  process : ProcessStatus.Process
  status : ProcessStatus.Status
  process_identifier : String
deriving DecidableEq

/-- `Compilation.Status` -/
inductive Compilation.Status where
  | in_progress
  | succeeded
  | failed
deriving DecidableEq

/-- A derived compilation view (`submission.py`, class `Compilation`). -/
structure Compilation where
  source_id : String
  checksum : String
  output_format : String
  start_time : Nat
  end_time : Option Nat
  status : Compilation.Status := Compilation.Status.in_progress
deriving DecidableEq

/-- `Submission.WORKING` -/
def Submission.WORKING : String := "working"

/-- `Submission.SUBMITTED` -/
def Submission.SUBMITTED : String := "submitted"

/-- `Submission.ON_HOLD` -/
def Submission.ON_HOLD : String := "hold"

/-- `Submission.SCHEDULED` -/
def Submission.SCHEDULED : String := "scheduled"

/-- `Submission.PUBLISHED` -/
def Submission.PUBLISHED : String := "published"

/-- `Submission.ERROR` -/
def Submission.ERROR : String := "error"

/-- `Submission.DELETED` -/
def Submission.DELETED : String := "deleted"

/-- `Submission.WITHDRAWN` -/
def Submission.WITHDRAWN : String := "withdrawn"

/-- The aggregate root (`submission.py`, class `Submission`).  Python
dicts are insertion-ordered association lists here. -/
structure Submission where
  creator : Agent
  owner : Agent
  created : Option Nat := none
  updated : Option Nat := none
  source_content : Option SubmissionContent := none
  primary_classification : Option Classification := none
  delegations : List (String × Delegation) := []
  proxy : Option Agent := none
  client : Option Agent := none
  submission_id : Option Nat := none
  metadata : SubmissionMetadata := {}
  secondary_classification : List Classification := []
  submitter_contact_verified : Bool := false
  submitter_is_author : Option Bool := none
  submitter_accepts_policy : Option Bool := none
  submitter_confirmed_preview : Bool := false
  license : Option License := none
  status : String := Submission.WORKING
  arxiv_id : Option String := none
  version : Nat := 1
  reason_for_withdrawal : Option String := none
  versions : List Submission := []
  user_requests : List (String × UserRequest) := []
  proposals : List (String × Proposal) := []
  processes : List ProcessStatus := []
  annotations : List (String × Annotation ) := []
  flags : List (String × QCFlag) := []
  comments : List (String × ModComment) := []
  holds : List (String × Hold) := []

/-- `Submission.active` (property): status not in [DELETED, PUBLISHED]. -/
def Submission.active (s : Submission) : Bool :=
  ! [Submission.DELETED, Submission.PUBLISHED].contains s.status

/-- `Submission.published` (property). -/
def Submission.published (s : Submission) : Bool :=
  s.status == Submission.PUBLISHED

/-- `Submission.finalized` (property): status not in [WORKING, DELETED]. -/
def Submission.finalized (s : Submission) : Bool :=
  ! [Submission.WORKING, Submission.DELETED].contains s.status

/-- `Submission.deleted` (property). -/
def Submission.deleted (s : Submission) : Bool :=
  s.status == Submission.DELETED

/-- `Submission.is_on_hold` (property): `len(self.holds) > 0 or
self.status == self.ON_HOLD`. -/
def Submission.is_on_hold (s : Submission) : Bool :=
  decide (s.holds.length > 0) || s.status == Submission.ON_HOLD

/-- `Submission.active_user_requests` (property). -/
def Submission.active_user_requests (s : Submission) : List UserRequest :=
  (s.user_requests.map Prod.snd).filter UserRequest.is_active

/-- `Submission.has_active_requests` (property). -/
def Submission.has_active_requests (s : Submission) : Bool :=
  decide (s.active_user_requests.length > 0)

/-- C8: Status-predicate invariants: for every Submission value,
`published` holds iff status = PUBLISHED, `deleted` iff status = DELETED,
`finalized` iff status is not in WORKING or DELETED, `active` iff status
is not in DELETED or PUBLISHED, and `is_on_hold` iff the holds collection
is non-empty or status = ON_HOLD. -/
theorem submission_status_predicates (s : Submission) :
    (s.published = true ↔ s.status = Submission.PUBLISHED)
    ∧ (s.deleted = true ↔ s.status = Submission.DELETED)
    ∧ (s.finalized = true ↔
        ¬ (s.status = Submission.WORKING ∨ s.status = Submission.DELETED))
    ∧ (s.active = true ↔
        ¬ (s.status = Submission.DELETED ∨ s.status = Submission.PUBLISHED))
    ∧ (s.is_on_hold = true ↔
        (s.holds ≠ [] ∨ s.status = Submission.ON_HOLD)) := by
  refine ⟨?_, ?_, ?_, ?_, ?_⟩
  · simp [Submission.published]
  · simp [Submission.deleted]
  · simp [Submission.finalized, List.contains]
  · simp [Submission.active, List.contains]
  · simp [Submission.is_on_hold, List.length_pos]

/-- Stable insertion used by `sortByKey`: the new element goes after all
existing elements whose key is ≤ its key, matching the stability of
Python's `sorted`. -/
def insertByKey {α : Type} (k : α → Nat) (x : α) : List α → List α
  | [] => [x]
  | y :: ys => if k y ≤ k x then y :: insertByKey k x ys else x :: y :: ys

/-- Stable sort by a `Nat` key, modelling Python's `sorted(l, key=k)`. -/
def sortByKey {α : Type} (k : α → Nat) (l : List α) : List α :=
  l.foldl (fun acc x => insertByKey k x acc) []

/-- `p.status in finished_states` (`submission.py`). -/
def ProcessStatus.Status.is_finished : ProcessStatus.Status → Bool
  | ProcessStatus.Status.succeeded => true
  | ProcessStatus.Status.failed => true
  | ProcessStatus.Status.requested => false

/-- The `status_map` dict in `Compilation.from_processes`. -/
def status_map : ProcessStatus.Status → Compilation.Status
  | ProcessStatus.Status.requested => Compilation.Status.in_progress
  | ProcessStatus.Status.succeeded => Compilation.Status.succeeded
  | ProcessStatus.Status.failed => Compilation.Status.failed

/-- Character-level scan for Python's `identifier.split("::")`: split at
each non-overlapping occurrence of `::`, scanning left to right;
`acc` holds the current piece reversed. -/
def splitDoubleColonAux : List Char → List Char → List (List Char)
  | [], acc => [acc.reverse]
  | [c], acc => [(c :: acc).reverse]
  | c1 :: c2 :: cs, acc =>
    if c1 = ':' ∧ c2 = ':' then
      acc.reverse :: splitDoubleColonAux cs []
    else
      splitDoubleColonAux (c2 :: cs) (c1 :: acc)

/-- Python's `identifier.split("::")` (used by
`Compilation.from_processes` to unpack the process identifier),
implemented over the character list so that it is kernel-executable. -/
def split_on_double_colon (s : String) : List String :=
  (splitDoubleColonAux s.data []).map (fun l => String.mk l)

/-- Result of `Compilation.from_processes`: the Python function returns
`None` when there are no compilation records, returns a `Compilation`
otherwise, and raises (`UnboundLocalError` for an unassigned `start_time`,
or an unpacking `ValueError`) on the remaining paths. -/
inductive CompResult where
  | none : CompResult
  | error (msg : String) : CompResult
  | ok (c : Compilation) : CompResult
deriving DecidableEq

/-- The sorted, COMPILATION-only view of a process list computed at the
start of `Compilation.from_processes`. -/
def compilation_processes (processes : List ProcessStatus) :
    List ProcessStatus :=
  sortByKey (fun p => p.created)
    (processes.filter
      (fun p => p.process == ProcessStatus.Process.compilation))

/-- `Compilation.from_processes` (`submission.py`, lines 126-174): derive a
`Compilation` from the latest run of COMPILATION process records.
`start_time` comes from the first REQUESTED record found scanning the
sorted records backward from the last one with the same
`process_identifier`; if none exists the Python code never assigns
`start_time` and raises. -/
def Compilation.from_processes (processes : List ProcessStatus) :
    CompResult :=
  let ps := compilation_processes processes
  match ps.getLast? with
  | Option.none => CompResult.none
  | Option.some latest =>
    match split_on_double_colon latest.process_identifier with
    | [source_id, checksum, output_format] =>
      if latest.status.is_finished then
        match ps.reverse.find?
            (fun p => p.process_identifier == latest.process_identifier
              && p.status == ProcessStatus.Status.requested) with
        | Option.some proc =>
          CompResult.ok
            { source_id := source_id, checksum := checksum,
              output_format := output_format, start_time := proc.created,
              end_time := Option.some latest.created,
              status := status_map latest.status }
        | Option.none =>
          CompResult.error ("local variable referenced before assignment")
      else
        CompResult.ok
          { source_id := source_id, checksum := checksum,
            output_format := output_format, start_time := latest.created,
            end_time := Option.none, status := status_map latest.status }
    | _ => CompResult.error ("cannot unpack process_identifier")

/-- `Submission.latest_compilation` (property). -/
def Submission.latest_compilation (s : Submission) : CompResult :=
  Compilation.from_processes s.processes

/-- The loop body of `Submission.get_compilations`: walk the sorted
process list keeping the current run in `on_deck`; close the run when its
last record is finished or a different `process_identifier` arrives. -/
def get_compilations_aux :
    List ProcessStatus → List ProcessStatus → List CompResult
  | [], on_deck =>
    match on_deck with
    | [] => []
    | _ => [Compilation.from_processes on_deck]
  | p :: rest, on_deck =>
    if p.process == ProcessStatus.Process.compilation then
      match on_deck.getLast? with
      | Option.none => get_compilations_aux rest (on_deck ++ [p])
      | Option.some lastp =>
        if lastp.status.is_finished
            || !(p.process_identifier == lastp.process_identifier) then
          Compilation.from_processes on_deck
            :: get_compilations_aux rest [p]
        else
          get_compilations_aux rest (on_deck ++ [p])
    else
      get_compilations_aux rest on_deck

/-- `Submission.get_compilations`. -/
def Submission.get_compilations (s : Submission) : List CompResult :=
  get_compilations_aux (sortByKey (fun p => p.created) s.processes) []

/-- `Submission.compilations` (property). -/
def Submission.compilations (s : Submission) : List CompResult :=
  s.get_compilations

/-- The payloads of the embedded event variants.  The request-workflow
variants are from `domain/event/request.py`; `create_submission` is
modelled from the spec.  The constructor tag plays the role of the Python
event class ("type"). -/
inductive EventPayload where
  | create_submission : EventPayload
  | approve_request (request_id : Option String) : EventPayload
  | reject_request (request_id : Option String) : EventPayload
  | apply_request (request_id : Option String) : EventPayload
  | request_withdrawal (reason : String) : EventPayload
  | request_cross_list (categories : List String) : EventPayload
deriving DecidableEq

/-- An event (`domain/event/event.py` base-class fields as read by
`core.py` and `request.py`): creator, creation time, late-bound
submission id, `committed` flag, and the variant payload. -/
structure Event where
  creator : Agent
  created : Nat
  submission_id : Option Nat := none
  committed : Bool := false
  payload : EventPayload
deriving DecidableEq

/-- Modelled from the spec: an event's identifier is a pure function of
its semantically meaningful fields (type, creator, payload, timestamp);
`domain/event/event.py`, which computes the digest, is not among the
sources.  The digest is modelled by the digested fields themselves (the
variant tag lives inside `payload`). -/
def event_id (e : Event) : Agent × Nat × EventPayload :=
  (e.creator, e.created, e.payload)

/-- `__eq__`/`__hash__` of the event classes in `request.py`: two events
compare equal (and hash equal) exactly when their `event_id`s agree. -/
def Event.beq (e1 e2 : Event) : Bool :=
  event_id e1 == event_id e2

/-- `RequestWithdrawal.MAX_LENGTH` -/
def RequestWithdrawal.MAX_LENGTH : Nat := 400

/-- Membership test for the association-list model of a Python dict. -/
def has_key (r : String) (l : List (String × UserRequest)) : Bool :=
  (l.lookup r).isSome

/-- `d[k] = v` on the association-list model of a Python dict: replace the
binding if the key is present, append it otherwise. -/
def dict_set (k : String) (v : UserRequest)
    (l : List (String × UserRequest)) : List (String × UserRequest) :=
  if has_key k l then
    l.map (fun kv => if kv.fst = k then (k, v) else kv)
  else
    l ++ [(k, v)]

/-- Set the `status` field of the request stored under key `r`, as the
`project` methods of ApproveRequest/RejectRequest/ApplyRequest do. -/
def set_request_status (r : String) (new_status : String)
    (l : List (String × UserRequest)) : List (String × UserRequest) :=
  l.map (fun kv =>
    if kv.fst = r then (kv.fst, { kv.snd with status := new_status })
    else kv)

/-- `validate` of the event variants (`request.py`).  The
`no_active_requests` predicate of the missing `validators.py` is modelled
from the spec: it fails when some request is active (PENDING or
APPROVED), which is `Submission.has_active_requests` from
`submission.py`.  Taxonomy-membership checks of `RequestCrossList`
concern the external taxonomy provider and are outside the embedding;
`create_submission` existence checking happens in `Event.apply`. -/
def Event.validate (e : Event) (s : Submission) : Except String Unit :=
  match e.payload with
  | EventPayload.create_submission => Except.ok ()
  | EventPayload.approve_request request_id =>
    match request_id with
    | some r =>
      if has_key r s.user_requests then Except.ok ()
      else Except.error ("No such request")
    | none => Except.error ("No such request")
  | EventPayload.reject_request request_id =>
    match request_id with
    | some r =>
      if has_key r s.user_requests then Except.ok ()
      else Except.error ("No such request")
    | none => Except.error ("No such request")
  | EventPayload.apply_request request_id =>
    match request_id with
    | some r =>
      if has_key r s.user_requests then Except.ok ()
      else Except.error ("No such request")
    | none => Except.error ("No such request")
  | EventPayload.request_withdrawal reason =>
    if s.has_active_requests then
      Except.error ("One request at a time, please")
    else if reason = "" then
      Except.error ("Provide a reason for the withdrawal")
    else if reason.length > RequestWithdrawal.MAX_LENGTH then
      Except.error ("Reason must be 400 characters or less")
    else if !s.published then
      Except.error ("Submission must already be published")
    else Except.ok ()
  | EventPayload.request_cross_list _ =>
    if s.has_active_requests then
      Except.error ("One request at a time, please")
    else if !s.published then
      Except.error ("Submission must already be published")
    else Except.ok ()

/-- `project` of the event variants (`request.py`).  The branches with an
absent `request_id` are unreachable because `Event.apply` validates
first; they return the submission unchanged. -/
def Event.project (e : Event) (s : Submission) : Submission :=
  match e.payload with
  | EventPayload.create_submission => s
  | EventPayload.approve_request request_id =>
    match request_id with
    | some r =>
      { s with user_requests :=
          set_request_status r UserRequest.APPROVED s.user_requests }
    | none => s
  | EventPayload.reject_request request_id =>
    match request_id with
    | some r =>
      { s with user_requests :=
          set_request_status r UserRequest.REJECTED s.user_requests }
    | none => s
  | EventPayload.apply_request request_id =>
    match request_id with
    | some r =>
      { s with user_requests :=
          set_request_status r UserRequest.APPLIED s.user_requests }
    | none => s
  | EventPayload.request_withdrawal reason =>
    let request : UserRequest :=
      { request_type := "WithdrawalRequest", creator := e.creator,
        created := e.created, updated := e.created,
        status := UserRequest.PENDING,
        reason_for_withdrawal := some reason }
    { s with user_requests :=
        dict_set request.request_id request s.user_requests }
  | EventPayload.request_cross_list categories =>
    let request : UserRequest :=
      { request_type := "CrossListClassificationRequest",
        creator := e.creator, created := e.created, updated := e.created,
        status := UserRequest.PENDING,
        classifications := categories.map (fun c => { category := c }) }
    { s with user_requests :=
        dict_set request.request_id request s.user_requests }

/-- Modelled from the spec: the initial aggregate produced by a creation
event — creator and owner from the event, everything else the dataclass
defaults (`CreateSubmission.project` lives in the missing
`domain/event/event.py`). -/
def initial_submission (e : Event) : Submission :=
  { creator := e.creator, owner := e.creator,
    created := some e.created, updated := some e.created,
    versions := [] }

/-- `Event.apply` (missing `domain/event/event.py`, modelled from the
spec): a creation event requires no existing submission and produces the
initial aggregate; every other event validates against the current state
and then projects. -/
def Event.apply (e : Event) (before : Option Submission) :
    Except String Submission :=
  match before with
  | none =>
    match e.payload with
    | EventPayload.create_submission => Except.ok (initial_submission e)
    | _ => Except.error ("Cannot apply event to a nonexistent submission")
  | some s =>
    match e.payload with
    | EventPayload.create_submission =>
      Except.error ("Submission already exists")
    | _ =>
      match e.validate s with
      | Except.error reason => Except.error reason
      | Except.ok _ => Except.ok (e.project s)

/-- First-occurrence deduplication by `event_id`, modelling the set union
`set(prior) | set(events)` in `save` (`core.py`, line 151) together with
the event classes' identity semantics; `seen` accumulates the
identifiers already kept. -/
def dedupByIdAux (seen : List (Agent × Nat × EventPayload)) :
    List Event → List Event
  | [] => []
  | e :: es =>
    if event_id e ∈ seen then dedupByIdAux seen es
    else e :: dedupByIdAux (event_id e :: seen) es

/-- Deduplicate a list of events by `event_id`, keeping first
occurrences. -/
def dedupById (l : List Event) : List Event :=
  dedupByIdAux [] l

/-- `sorted(set(prior) | set(events), key=lambda e: e.created)`
(`core.py`, line 151).  Python's set-union enumeration order is
unspecified; it is modelled as first-occurrence order of
`prior ++ events`. -/
def mergeEvents (prior events : List Event) : List Event :=
  sortByKey (fun e => e.created) (dedupById (prior ++ events))

/-- The error taxonomy of `save` (`exceptions.py` as used by `core.py`):
`value_error` for an empty batch, `no_such_submission`, `invalid_event`
carrying the human-readable reason, and `invalid_stack` for runaway rule
recursion. -/
inductive SaveError where
  | value_error : SaveError
  | no_such_submission (msg : String) : SaveError
  | invalid_event (reason : String) : SaveError
  | invalid_stack : SaveError
deriving DecidableEq

/-- Insert rule-derived consequent events into the remaining work queue
in their own creation-time order (spec §4.4 step 6; the queue form is the
spec's own design note for the rule-engine recursion). -/
def insert_consequents (cons rest : List Event) : List Event :=
  cons.foldl (fun q c => insertByKey (fun e => e.created) c q) rest

/-- The fold at the heart of `save` (`core.py`, lines 154-167): apply each
queued event to the current state (raising `InvalidEvent` aborts
everything), record it in `applied`, and, when the event was not already
committed, stage it for persistence (`pending`) and queue the rule
engine's consequent events.  The rule engine itself lives outside the
embedded sources, so it is a parameter; `fuel` bounds its recursion,
mirroring `InvalidStack` being fatal. -/
def process_events (rules : Event → Submission → List Event) :
    Nat → Option Submission → List Event → List Event → List Event →
    Except SaveError (Submission × List Event × List Event)
  | _, before, [], applied, pending =>
    match before with
    | some after => Except.ok (after, applied, pending)
    | none => Except.error SaveError.value_error
  | 0, _, _ :: _, _, _ => Except.error SaveError.invalid_stack
  | Nat.succ fuel, before, e :: rest, applied, pending =>
    match e.apply before with
    | Except.error reason =>
      Except.error (SaveError.invalid_event reason)
    | Except.ok after =>
      if e.committed then
        process_events rules fuel (some after) rest (applied ++ [e])
          pending
      else
        process_events rules fuel (some after)
          (insert_consequents (rules e after) rest)
          (applied ++ [e]) (pending ++ [e])

/-- The body of `save` after the argument checks: merge prior and new
events, fold them from the empty aggregate, and either commit the staged
events to the durable store or roll the transaction back.  The
transactional store (`services/classic`) is not among the sources and is
modelled from the spec: either an entire batch is persisted or none of
it is. -/
def save_run (store prior : List Event)
    (rules : Event → Submission → List Event) (fuel : Nat)
    (events : List Event) :
    Except SaveError (Submission × List Event) × List Event :=
  match process_events rules fuel none (mergeEvents prior events) [] [] with
  | Except.error err => (Except.error err, store)
  | Except.ok (after, applied, pending) =>
    (Except.ok (after, sortByKey (fun e => e.created) (dedupById applied)),
      store ++ pending)

/-- `save` (`core.py`, lines 94-168): requires at least one event; loads
prior events when a submission id is given (failing with
`NoSuchSubmission` when there are none); otherwise requires the first
event to carry a submission id or be a creation event; then runs the
merge-and-fold.  Returns the command result together with the durable
store after the call. -/
def save (store : List Event) (rules : Event → Submission → List Event)
    (fuel : Nat) (events : List Event) (submission_id : Option Nat) :
    Except SaveError (Submission × List Event) × List Event :=
  match events with
  | [] => (Except.error SaveError.value_error, store)
  | e0 :: _ =>
    match submission_id with
    | some _ =>
      if store.isEmpty then
        (Except.error (SaveError.no_such_submission ("No such submission")),
          store)
      else save_run store store rules fuel events
    | none =>
      if e0.submission_id.isNone
          && !(e0.payload == EventPayload.create_submission) then
        (Except.error
            (SaveError.no_such_submission ("Unable to determine submission")),
          store)
      else save_run store [] rules fuel events

/-- Membership in an insertion. -/
theorem mem_insertByKey {α : Type} (k : α → Nat) (x a : α) :
    ∀ l : List α, a ∈ insertByKey k x l ↔ a = x ∨ a ∈ l := by
  intro l
  induction l with
  | nil => simp [insertByKey]
  | cons y ys ih =>
    simp only [insertByKey]
    by_cases h : k y ≤ k x
    · simp only [if_pos h, List.mem_cons, ih]
      tauto
    · simp only [if_neg h, List.mem_cons]

/-- An insertion is a permutation of consing. -/
theorem insertByKey_perm {α : Type} (k : α → Nat) (x : α) :
    ∀ l : List α, List.Perm (insertByKey k x l) (x :: l) := by
  intro l
  induction l with
  | nil => simp [insertByKey]
  | cons y ys ih =>
    simp only [insertByKey]
    by_cases h : k y ≤ k x
    · simp only [if_pos h]
      exact List.Perm.trans (List.Perm.cons y ih) (List.Perm.swap x y ys)
    · simp only [if_neg h]
      exact List.Perm.refl _

/-- Insertion preserves sortedness by the key. -/
theorem pairwise_insertByKey {α : Type} (k : α → Nat) (x : α) :
    ∀ l : List α, List.Pairwise (fun a b => k a ≤ k b) l →
      List.Pairwise (fun a b => k a ≤ k b) (insertByKey k x l) := by
  intro l
  induction l with
  | nil => simp [insertByKey]
  | cons y ys ih =>
    intro hp
    rw [List.pairwise_cons] at hp
    simp only [insertByKey]
    by_cases h : k y ≤ k x
    · simp only [if_pos h]
      rw [List.pairwise_cons]
      refine ⟨?_, ih hp.2⟩
      intro a ha
      rcases (mem_insertByKey k x a ys).mp ha with rfl | ha
      · exact h
      · exact hp.1 a ha
    · simp only [if_neg h]
      rw [List.pairwise_cons]
      refine ⟨?_, List.pairwise_cons.mpr hp⟩
      intro a ha
      rcases List.mem_cons.mp ha with rfl | ha
      · exact Nat.le_of_lt (Nat.lt_of_not_le h)
      · exact Nat.le_trans (Nat.le_of_lt (Nat.lt_of_not_le h)) (hp.1 a ha)

/-- The fold underlying `sortByKey` permutes its accumulator and input. -/
theorem sortByKey_foldl_perm {α : Type} (k : α → Nat) :
    ∀ (l acc : List α),
      List.Perm (l.foldl (fun acc x => insertByKey k x acc) acc) (acc ++ l) := by
  intro l
  induction l with
  | nil => simp
  | cons x xs ih =>
    intro acc
    simp only [List.foldl_cons]
    exact List.Perm.trans (ih (insertByKey k x acc))
      (List.Perm.trans
        (List.Perm.append_right xs (insertByKey_perm k x acc))
        (List.perm_middle.symm))

/-- `sortByKey` is a permutation of its input. -/
theorem sortByKey_perm {α : Type} (k : α → Nat) (l : List α) :
    List.Perm (sortByKey k l) l := by
  simpa using sortByKey_foldl_perm k l []

/-- Membership in a sorted list. -/
theorem mem_sortByKey {α : Type} (k : α → Nat) (l : List α) (a : α) :
    a ∈ sortByKey k l ↔ a ∈ l :=
  List.Perm.mem_iff (sortByKey_perm k l)

/-- The fold underlying `sortByKey` keeps the accumulator sorted. -/
theorem sortByKey_foldl_pairwise {α : Type} (k : α → Nat) :
    ∀ (l acc : List α), List.Pairwise (fun a b => k a ≤ k b) acc →
      List.Pairwise (fun a b => k a ≤ k b)
        (l.foldl (fun acc x => insertByKey k x acc) acc) := by
  intro l
  induction l with
  | nil => intro acc h; simpa using h
  | cons x xs ih =>
    intro acc h
    simp only [List.foldl_cons]
    exact ih (insertByKey k x acc) (pairwise_insertByKey k x acc h)

/-- `sortByKey` sorts by the key. -/
theorem pairwise_sortByKey {α : Type} (k : α → Nat) (l : List α) :
    List.Pairwise (fun a b => k a ≤ k b) (sortByKey k l) :=
  sortByKey_foldl_pairwise k l [] (by simp)

/-- Inserting an element whose key dominates the list appends it. -/
theorem insertByKey_append {α : Type} (k : α → Nat) (x : α) :
    ∀ l : List α, (∀ y ∈ l, k y ≤ k x) → insertByKey k x l = l ++ [x] := by
  intro l
  induction l with
  | nil => simp [insertByKey]
  | cons y ys ih =>
    intro h
    simp only [insertByKey]
    rw [if_pos (h y (List.mem_cons_self y ys))]
    simp only [List.cons_append, List.cons.injEq, true_and]
    exact ih (fun z hz => h z (List.mem_cons_of_mem y hz))

/-- Sorting a list that is already sorted (with the accumulator in front)
returns it unchanged. -/
theorem sortByKey_foldl_of_pairwise {α : Type} (k : α → Nat) :
    ∀ (l acc : List α),
      List.Pairwise (fun a b => k a ≤ k b) (acc ++ l) →
      l.foldl (fun acc x => insertByKey k x acc) acc = acc ++ l := by
  intro l
  induction l with
  | nil => intro acc _; simp
  | cons x xs ih =>
    intro acc h
    simp only [List.foldl_cons]
    have hax : ∀ y ∈ acc, k y ≤ k x := by
      intro y hy
      have := (List.pairwise_append.mp h).2.2
      exact this y hy x (List.mem_cons_self x xs)
    rw [insertByKey_append k x acc hax]
    have h2 : List.Pairwise (fun a b => k a ≤ k b) ((acc ++ [x]) ++ xs) := by
      simpa [List.append_assoc] using h
    rw [ih (acc ++ [x]) h2]
    simp

/-- Sorting an already-sorted list is the identity. -/
theorem sortByKey_of_pairwise {α : Type} (k : α → Nat) (l : List α)
    (h : List.Pairwise (fun a b => k a ≤ k b) l) : sortByKey k l = l := by
  simpa using sortByKey_foldl_of_pairwise k l [] (by simpa using h)

/-- Elements produced by the deduplication are elements of the input. -/
theorem mem_of_mem_dedupByIdAux (a : Event) :
    ∀ (l : List Event) (seen : List (Agent × Nat × EventPayload)),
      a ∈ dedupByIdAux seen l → a ∈ l := by
  intro l
  induction l with
  | nil => intro seen h; simp [dedupByIdAux] at h
  | cons e es ih =>
    intro seen h
    simp only [dedupByIdAux] at h
    by_cases hs : event_id e ∈ seen
    · rw [if_pos hs] at h
      exact List.mem_cons_of_mem e (ih seen h)
    · rw [if_neg hs] at h
      rcases List.mem_cons.mp h with rfl | h
      · exact List.mem_cons_self a es
      · exact List.mem_cons_of_mem e (ih (event_id e :: seen) h)

/-- The identifier of a kept event was not among the already-seen
identifiers. -/
theorem dedupByIdAux_id_not_seen (a : Event) :
    ∀ (l : List Event) (seen : List (Agent × Nat × EventPayload)),
      a ∈ dedupByIdAux seen l → event_id a ∉ seen := by
  intro l
  induction l with
  | nil => intro seen h; simp [dedupByIdAux] at h
  | cons e es ih =>
    intro seen h
    simp only [dedupByIdAux] at h
    by_cases hs : event_id e ∈ seen
    · rw [if_pos hs] at h
      exact ih seen h
    · rw [if_neg hs] at h
      rcases List.mem_cons.mp h with rfl | h
      · exact hs
      · intro hc
        exact ih (event_id e :: seen) h (List.mem_cons_of_mem _ hc)

/-- The deduplicated list has pairwise distinct identifiers. -/
theorem pairwise_ne_id_dedupByIdAux :
    ∀ (l : List Event) (seen : List (Agent × Nat × EventPayload)),
      List.Pairwise (fun a b => event_id a ≠ event_id b)
        (dedupByIdAux seen l) := by
  intro l
  induction l with
  | nil => intro seen; simp [dedupByIdAux]
  | cons e es ih =>
    intro seen
    simp only [dedupByIdAux]
    by_cases hs : event_id e ∈ seen
    · rw [if_pos hs]
      exact ih seen
    · rw [if_neg hs]
      rw [List.pairwise_cons]
      refine ⟨?_, ih (event_id e :: seen)⟩
      intro a ha
      have := dedupByIdAux_id_not_seen a es (event_id e :: seen) ha
      intro hc
      exact this (by rw [← hc]; exact List.mem_cons_self _ _)

/-- When events with equal identifiers are equal, deduplication keeps
every event of the input that is not already represented in `seen`. -/
theorem mem_dedupByIdAux_of_mem (a : Event) :
    ∀ (l : List Event) (seen : List (Agent × Nat × EventPayload)),
      (∀ x ∈ l, ∀ y ∈ l, event_id x = event_id y → x = y) →
      a ∈ l → event_id a ∉ seen → a ∈ dedupByIdAux seen l := by
  intro l
  induction l with
  | nil => intro seen _ h; simp at h
  | cons e es ih =>
    intro seen hinj ha hseen
    have hinj' : ∀ x ∈ es, ∀ y ∈ es, event_id x = event_id y → x = y := by
      intro x hx y hy
      exact hinj x (List.mem_cons_of_mem e hx) y (List.mem_cons_of_mem e hy)
    simp only [dedupByIdAux]
    by_cases hs : event_id e ∈ seen
    · rw [if_pos hs]
      rcases List.mem_cons.mp ha with rfl | ha
      · exact absurd hs hseen
      · exact ih seen hinj' ha hseen
    · rw [if_neg hs]
      rcases List.mem_cons.mp ha with rfl | ha
      · exact List.mem_cons_self a _
      · by_cases hae : event_id a = event_id e
        · have : a = e :=
            hinj a (List.mem_cons_of_mem e ha) e (List.mem_cons_self e es) hae
          rw [this]
          exact List.mem_cons_self e _
        · refine List.mem_cons_of_mem e (ih (event_id e :: seen) hinj' ha ?_)
          intro hc
          rcases List.mem_cons.mp hc with h | h
          · exact hae h
          · exact hseen h

/-- Membership in the deduplication, assuming events with equal
identifiers are equal. -/
theorem mem_dedupById (a : Event) (l : List Event)
    (hinj : ∀ x ∈ l, ∀ y ∈ l, event_id x = event_id y → x = y) :
    a ∈ dedupById l ↔ a ∈ l := by
  constructor
  · exact mem_of_mem_dedupByIdAux a l []
  · intro ha
    exact mem_dedupByIdAux_of_mem a l [] hinj ha (by simp)

/-- Two lists that are strictly sorted by a key and have the same
elements are equal. -/
theorem eq_of_mem_iff_of_pairwise_lt {α : Type} (k : α → Nat) :
    ∀ (l₁ l₂ : List α), (∀ x, x ∈ l₁ ↔ x ∈ l₂) →
      List.Pairwise (fun a b => k a < k b) l₁ →
      List.Pairwise (fun a b => k a < k b) l₂ → l₁ = l₂ := by
  intro l₁
  induction l₁ with
  | nil =>
    intro l₂ hmem _ _
    cases l₂ with
    | nil => rfl
    | cons b t₂ =>
      have : b ∈ ([] : List α) := (hmem b).mpr (List.mem_cons_self b t₂)
      simp at this
  | cons a t₁ ih =>
    intro l₂ hmem h₁ h₂
    cases l₂ with
    | nil =>
      have : a ∈ ([] : List α) := (hmem a).mp (List.mem_cons_self a t₁)
      simp at this
    | cons b t₂ =>
      rw [List.pairwise_cons] at h₁ h₂
      have hab : a = b := by
        rcases List.mem_cons.mp ((hmem a).mp (List.mem_cons_self a t₁)) with
          h | hat₂
        · exact h
        · rcases List.mem_cons.mp ((hmem b).mpr (List.mem_cons_self b t₂)) with
            h | hbt₁
          · exact h.symm
          · exact absurd (Nat.lt_trans (h₁.1 b hbt₁) (h₂.1 a hat₂))
              (Nat.lt_irrefl _)
      subst hab
      have hmem' : ∀ x, x ∈ t₁ ↔ x ∈ t₂ := by
        intro x
        constructor
        · intro hx
          have hxa : x ≠ a := by
            intro h
            exact absurd (h ▸ h₁.1 x hx) (Nat.lt_irrefl _)
          rcases List.mem_cons.mp ((hmem x).mp (List.mem_cons_of_mem a hx))
            with h | h
          · exact absurd h hxa
          · exact h
        · intro hx
          have hxa : x ≠ a := by
            intro h
            exact absurd (h ▸ h₂.1 x hx) (Nat.lt_irrefl _)
          rcases List.mem_cons.mp ((hmem x).mpr (List.mem_cons_of_mem a hx))
            with h | h
          · exact absurd h hxa
          · exact h
      rw [ih t₂ hmem' h₁.2 h₂.2]

/-- Looking up the targeted key after `set_request_status` yields the
stored request with only its status replaced. -/
theorem lookup_set_request_status_self (r st : String) :
    ∀ (l : List (String × UserRequest)) (req : UserRequest),
      l.lookup r = some req →
      (set_request_status r st l).lookup r
        = some { req with status := st } := by
  intro l
  induction l with
  | nil => intro req h; simp [List.lookup] at h
  | cons kv rest ih =>
    intro req h
    rcases kv with ⟨k, v⟩
    by_cases hk : r = k
    · have hbeq : (r == k) = true := beq_iff_eq.mpr hk
      simp only [List.lookup, hbeq] at h
      cases h
      simp only [set_request_status, List.map_cons]
      rw [if_pos hk.symm]
      simp [List.lookup, hbeq]
    · have hbeq : (r == k) = false := by simp [hk]
      simp only [List.lookup, hbeq] at h
      simp only [set_request_status, List.map_cons]
      rw [if_neg (fun hc => hk hc.symm)]
      simp only [List.lookup, hbeq]
      exact ih req h

/-- Looking up any other key after `set_request_status` is unchanged. -/
theorem lookup_set_request_status_other (r r' st : String) (hne : r' ≠ r) :
    ∀ l : List (String × UserRequest),
      (set_request_status r st l).lookup r' = l.lookup r' := by
  intro l
  induction l with
  | nil => simp [set_request_status]
  | cons kv rest ih =>
    rcases kv with ⟨k, v⟩
    simp only [set_request_status, List.map_cons]
    by_cases hk : k = r
    · rw [if_pos hk]
      have hbeq : (r' == k) = false := by simp [hk ▸ hne]
      simp only [List.lookup, hbeq]
      exact ih
    · rw [if_neg hk]
      by_cases hk' : r' = k
      · have hbeq : (r' == k) = true := beq_iff_eq.mpr hk'
        simp only [List.lookup, hbeq]
      · have hbeq : (r' == k) = false := by simp [hk']
        simp only [List.lookup, hbeq]
        exact ih

/-- C7: Frame effect of request-resolution events: projecting an
ApproveRequest (resp. RejectRequest, ApplyRequest) with `request_id = r`
rewrites only the `user_requests` field, setting the status of request
`r` to APPROVED (resp. REJECTED, APPLIED) and leaving every other request
binding and every other submission field unchanged; validation succeeds
exactly when `r` is a key of `user_requests` (so it fails with
InvalidEvent exactly when it is not). -/
theorem request_resolution_frame_effect :
    (∀ (e : Event) (r : String) (s : Submission),
      (e.payload = EventPayload.approve_request (some r)
        ∨ e.payload = EventPayload.reject_request (some r)
        ∨ e.payload = EventPayload.apply_request (some r)) →
      (e.validate s = Except.ok () ↔ has_key r s.user_requests = true))
    ∧ (∀ (e : Event) (r : String) (s : Submission),
        e.payload = EventPayload.approve_request (some r) →
        e.project s = { s with user_requests := set_request_status r UserRequest.APPROVED s.user_requests })
    ∧ (∀ (e : Event) (r : String) (s : Submission),
        e.payload = EventPayload.reject_request (some r) →
        e.project s = { s with user_requests := set_request_status r UserRequest.REJECTED s.user_requests })
    ∧ (∀ (e : Event) (r : String) (s : Submission),
        e.payload = EventPayload.apply_request (some r) →
        e.project s = { s with user_requests := set_request_status r UserRequest.APPLIED s.user_requests })
    ∧ (∀ (s : Submission) (r st : String) (req : UserRequest),
        s.user_requests.lookup r = some req →
        (set_request_status r st s.user_requests).lookup r
          = some { req with status := st })
    ∧ (∀ (s : Submission) (r r' st : String), r' ≠ r →
        (set_request_status r st s.user_requests).lookup r'
          = s.user_requests.lookup r') := by
  refine ⟨?_, ?_, ?_, ?_, ?_, ?_⟩
  · intro e r s hp
    have hval : e.validate s =
        (if has_key r s.user_requests then Except.ok ()
         else Except.error ("No such request")) := by
      rcases hp with hp | hp | hp <;> simp [Event.validate, hp]
    rw [hval]
    by_cases hk : has_key r s.user_requests
    · simp [hk]
    · simp only [if_neg hk]
      constructor
      · intro hc; exact Except.noConfusion hc
      · intro hc; exact absurd hc (by simpa using hk)
  · intro e r s hp
    simp [Event.project, hp]
  · intro e r s hp
    simp [Event.project, hp]
  · intro e r s hp
    simp [Event.project, hp]
  · intro s r st req h
    exact lookup_set_request_status_self r st s.user_requests req h
  · intro s r r' st hne
    exact lookup_set_request_status_other r r' st hne s.user_requests

/-- C7 witness: a concrete submission with one pending request "w";
approving it succeeds, only the request's status changes, and looking up
a different key is unchanged. -/
theorem request_resolution_frame_effect_witness :
    (Event.validate
        { creator := "u", created := 3,
          payload := EventPayload.approve_request (some "w") }
        { creator := "u", owner := "u",
          user_requests :=
            [("w", { request_type := "WithdrawalRequest", creator := "u",
                     created := 1, updated := 1 })], versions := [] }
      = Except.ok ())
    ∧ (set_request_status "w" UserRequest.APPROVED
        [("w", { request_type := "WithdrawalRequest", creator := "u",
                 created := 1, updated := 1 })]).lookup "w"
      = some { request_type := "WithdrawalRequest", creator := "u",
               created := 1, updated := 1,
               status := UserRequest.APPROVED } := by
  constructor
  · exact (request_resolution_frame_effect.1
      { creator := "u", created := 3,
        payload := EventPayload.approve_request (some "w") } "w"
      { creator := "u", owner := "u",
        user_requests :=
          [("w", { request_type := "WithdrawalRequest", creator := "u",
                   created := 1, updated := 1 })], versions := [] }
      (Or.inl rfl)).mpr (by decide)
  · exact request_resolution_frame_effect.2.2.2.2.1
      { creator := "u", owner := "u",
        user_requests :=
          [("w", { request_type := "WithdrawalRequest", creator := "u",
                   created := 1, updated := 1 })], versions := [] }
      "w" UserRequest.APPROVED
      { request_type := "WithdrawalRequest", creator := "u",
        created := 1, updated := 1 }
      (by decide)

/-- C2 counterexample: a submission holding request "r1" with status
APPROVED.  `RejectRequest.validate` only checks that the request id
exists (`request.py`, lines 58-60), so rejecting the APPROVED request
does not fail with InvalidEvent — it succeeds and overwrites the status
to REJECTED, contradicting the claimed terminality. -/
theorem reject_approved_request_succeeds_counterexample :
    (Event.validate
        { creator := "mod", created := 5,
          payload := EventPayload.reject_request (some "r1") }
        { creator := "u", owner := "u",
          user_requests :=
            [("r1", { request_type := "WithdrawalRequest", creator := "u",
                      created := 1, updated := 1,
                      status := UserRequest.APPROVED })], versions := [] }
      = Except.ok ())
    ∧ ((Event.project
        { creator := "mod", created := 5,
          payload := EventPayload.reject_request (some "r1") }
        { creator := "u", owner := "u",
          user_requests :=
            [("r1", { request_type := "WithdrawalRequest", creator := "u",
                      created := 1, updated := 1,
                      status := UserRequest.APPROVED })],
          versions := [] }).user_requests.lookup "r1"
      = some { request_type := "WithdrawalRequest", creator := "u",
               created := 1, updated := 1,
               status := UserRequest.REJECTED }) := by
  constructor
  · rfl
  · rfl

/-- C2 (amended): validation of RejectRequest checks only that the
referenced request id exists; whenever request `r` exists — whatever its
status, including APPROVED, REJECTED or APPLIED — a RejectRequest with
`request_id = r` validates successfully and projection overwrites the
status to REJECTED, so no status of a user request is terminal under the
request-workflow events. -/
theorem reject_request_ignores_status (e : Event) (r : String)
    (s : Submission) (req : UserRequest)
    (hp : e.payload = EventPayload.reject_request (some r))
    (h : s.user_requests.lookup r = some req) :
    e.validate s = Except.ok ()
    ∧ (e.project s).user_requests.lookup r
      = some { req with status := UserRequest.REJECTED } := by
  constructor
  · simp [Event.validate, hp, has_key, h]
  · simp only [Event.project, hp]
    exact lookup_set_request_status_self r UserRequest.REJECTED
      s.user_requests req h

/-- C2 witness: the amended theorem applied to the APPROVED request
"r1". -/
theorem reject_request_ignores_status_witness :
    (Event.validate
        { creator := "mod", created := 5,
          payload := EventPayload.reject_request (some "r1") }
        { creator := "u", owner := "u",
          user_requests :=
            [("r1", { request_type := "WithdrawalRequest", creator := "u",
                      created := 1, updated := 1,
                      status := UserRequest.APPROVED })], versions := [] }
      = Except.ok ())
    ∧ ((Event.project
        { creator := "mod", created := 5,
          payload := EventPayload.reject_request (some "r1") }
        { creator := "u", owner := "u",
          user_requests :=
            [("r1", { request_type := "WithdrawalRequest", creator := "u",
                      created := 1, updated := 1,
                      status := UserRequest.APPROVED })],
          versions := [] }).user_requests.lookup "r1"
      = some { request_type := "WithdrawalRequest", creator := "u",
               created := 1, updated := 1, status := UserRequest.REJECTED,
               reason_for_withdrawal := none, classifications := [] }) :=
  reject_request_ignores_status
    { creator := "mod", created := 5,
      payload := EventPayload.reject_request (some "r1") } "r1"
    { creator := "u", owner := "u",
      user_requests :=
        [("r1", { request_type := "WithdrawalRequest", creator := "u",
                  created := 1, updated := 1,
                  status := UserRequest.APPROVED })], versions := [] }
    { request_type := "WithdrawalRequest", creator := "u",
      created := 1, updated := 1, status := UserRequest.APPROVED }
    rfl (by decide)

set_option maxRecDepth 8192 in
/-- C6: Withdrawal-request preconditions: `RequestWithdrawal.validate`
succeeds exactly when no request is active (PENDING or APPROVED), the
reason is non-empty and at most 400 characters, and the submission is
published — so it fails with InvalidEvent when any of these is violated;
in particular a 401-character reason fails and a 400-character reason
succeeds on a published submission with no active requests. -/
theorem request_withdrawal_preconditions :
    (∀ (e : Event) (reason : String) (s : Submission),
      e.payload = EventPayload.request_withdrawal reason →
      (e.validate s = Except.ok ()
        ↔ (s.has_active_requests = false ∧ reason ≠ ""
            ∧ reason.length ≤ 400 ∧ s.published = true)))
    ∧ (∀ (e : Event) (s : Submission),
        e.payload = EventPayload.request_withdrawal
          (String.mk (List.replicate 401 'a')) →
        s.has_active_requests = false → s.published = true →
        e.validate s ≠ Except.ok ())
    ∧ (∀ (e : Event) (s : Submission),
        e.payload = EventPayload.request_withdrawal
          (String.mk (List.replicate 400 'a')) →
        s.has_active_requests = false → s.published = true →
        e.validate s = Except.ok ()) := by
  have main : ∀ (e : Event) (reason : String) (s : Submission),
      e.payload = EventPayload.request_withdrawal reason →
      (e.validate s = Except.ok ()
        ↔ (s.has_active_requests = false ∧ reason ≠ ""
            ∧ reason.length ≤ 400 ∧ s.published = true)) := by
    intro e reason s hp
    simp only [Event.validate, hp]
    by_cases h1 : s.has_active_requests
    · simp [h1]
    · by_cases h2 : reason = ""
      · simp [h1, h2]
      · by_cases h3 : reason.length > RequestWithdrawal.MAX_LENGTH
        · simp only [RequestWithdrawal.MAX_LENGTH] at h3
          simp [h1, h2, h3, RequestWithdrawal.MAX_LENGTH]
        · simp only [RequestWithdrawal.MAX_LENGTH] at h3
          by_cases h4 : s.published
          · simp [h1, h2, h3, h4, RequestWithdrawal.MAX_LENGTH]
            omega
          · simp [h1, h2, h3, h4, RequestWithdrawal.MAX_LENGTH]
  refine ⟨main, ?_, ?_⟩
  · intro e s hp h1 h2 hok
    have h := (main e (String.mk (List.replicate 401 'a')) s hp).mp hok
    have hlen : (String.mk (List.replicate 401 'a')).length = 401 := by
      decide
    rw [hlen] at h
    omega
  · intro e s hp h1 h2
    refine (main e (String.mk (List.replicate 400 'a')) s hp).mpr
      ⟨h1, by decide, by decide, h2⟩

/-- C6 witness: on a published submission with no active requests, a
401-character reason is rejected and a 400-character reason is
accepted. -/
theorem request_withdrawal_preconditions_witness :
    (Event.validate
        { creator := "u", created := 9,
          payload := EventPayload.request_withdrawal
            (String.mk (List.replicate 401 'a')) }
        { creator := "u", owner := "u", status := Submission.PUBLISHED,
          versions := [] }
      ≠ Except.ok ())
    ∧ (Event.validate
        { creator := "u", created := 9,
          payload := EventPayload.request_withdrawal
            (String.mk (List.replicate 400 'a')) }
        { creator := "u", owner := "u", status := Submission.PUBLISHED,
          versions := [] }
      = Except.ok ()) :=
  ⟨request_withdrawal_preconditions.2.1
      { creator := "u", created := 9,
        payload := EventPayload.request_withdrawal
          (String.mk (List.replicate 401 'a')) }
      { creator := "u", owner := "u", status := Submission.PUBLISHED,
        versions := [] }
      rfl (by decide) (by decide),
    request_withdrawal_preconditions.2.2
      { creator := "u", created := 9,
        payload := EventPayload.request_withdrawal
          (String.mk (List.replicate 400 'a')) }
      { creator := "u", owner := "u", status := Submission.PUBLISHED,
        versions := [] }
      rfl (by decide) (by decide)⟩

/-- C5: Idempotent event identity: two events with identical type and
payload (both live in the `payload` value), creator and creation
timestamp have equal identifiers, compare equal under the
`__eq__`/`__hash__` semantics, and the set-based merge of `save`
collapses them to a single event, so resubmitting an already-applied
event is a no-op. -/
theorem event_identity_idempotent (e1 e2 : Event)
    (hc : e1.creator = e2.creator) (ht : e1.created = e2.created)
    (hp : e1.payload = e2.payload) :
    event_id e1 = event_id e2
    ∧ Event.beq e1 e2 = true
    ∧ dedupById [e1, e2] = [e1]
    ∧ mergeEvents [e1] [e2] = [e1] := by
  have hid : event_id e1 = event_id e2 := by
    simp [event_id, hc, ht, hp]
  have hd : dedupById [e1, e2] = [e1] := by
    simp [dedupById, dedupByIdAux, hid]
  refine ⟨hid, ?_, hd, ?_⟩
  · simp [Event.beq, hid]
  · have : ([e1] ++ [e2] : List Event) = [e1, e2] := rfl
    simp [mergeEvents, this, hd, sortByKey, insertByKey]

/-- C5 witness: two events equal in creator, timestamp and payload but
differing in the `committed` flag collapse to the first under the
set-based merge. -/
theorem event_identity_idempotent_witness :
    mergeEvents
        [{ creator := "u", created := 7, committed := true,
           payload := EventPayload.create_submission }]
        [{ creator := "u", created := 7, committed := false,
           payload := EventPayload.create_submission }]
      = [{ creator := "u", created := 7, committed := true,
           payload := EventPayload.create_submission }] :=
  (event_identity_idempotent
    { creator := "u", created := 7, committed := true,
      payload := EventPayload.create_submission }
    { creator := "u", created := 7, committed := false,
      payload := EventPayload.create_submission }
    rfl rfl rfl).2.2.2

/-- C10: Empty-process edge case: when a submission has no process record
of kind COMPILATION, `Compilation.from_processes` — and hence
`latest_compilation` — returns None rather than a Compilation or an
error. -/
theorem latest_compilation_none_without_compilation (s : Submission)
    (h : ∀ p ∈ s.processes,
      p.process ≠ ProcessStatus.Process.compilation) :
    s.latest_compilation = CompResult.none
    ∧ Compilation.from_processes s.processes = CompResult.none := by
  have hf : s.processes.filter
      (fun p => p.process == ProcessStatus.Process.compilation) = [] := by
    rw [List.filter_eq_nil_iff]
    intro p hp
    simp [h p hp]
  have hcp : compilation_processes s.processes = [] := by
    simp [compilation_processes, hf, sortByKey]
  constructor
  · simp [Submission.latest_compilation, Compilation.from_processes, hcp]
  · simp [Compilation.from_processes, hcp]

/-- C10 witness: a submission whose only process record is a plain-text
extraction has no latest compilation. -/
theorem latest_compilation_none_without_compilation_witness :
    Submission.latest_compilation
        { creator := "u", owner := "u",
          processes :=
            [{ creator := "svc", created := 1,
               process := ProcessStatus.Process.plain_text_extraction,
               status := ProcessStatus.Status.succeeded,
               process_identifier := "a::b::c" }], versions := [] }
      = CompResult.none :=
  (latest_compilation_none_without_compilation
    { creator := "u", owner := "u",
      processes :=
        [{ creator := "svc", created := 1,
           process := ProcessStatus.Process.plain_text_extraction,
           status := ProcessStatus.Status.succeeded,
           process_identifier := "a::b::c" }], versions := [] }
    (by decide)).1

/-- C9: Totality gap in compilation derivation: when the last COMPILATION
record (in creation-time order) has a terminal status but no record
shares its `process_identifier` with status REQUESTED,
`Compilation.from_processes` never assigns `start_time` and fails (the
error branch of the embedding) instead of returning a Compilation. -/
theorem from_processes_start_time_unassigned
    (processes : List ProcessStatus) (latest : ProcessStatus)
    (hlast : (compilation_processes processes).getLast? = some latest)
    (hterm : latest.status.is_finished = true)
    (hnoreq : ∀ p ∈ processes,
      ¬(p.process_identifier = latest.process_identifier
        ∧ p.status = ProcessStatus.Status.requested)) :
    ∃ msg, Compilation.from_processes processes = CompResult.error msg := by
  have hfind : (compilation_processes processes).reverse.find?
      (fun p => p.process_identifier == latest.process_identifier
        && p.status == ProcessStatus.Status.requested) = none := by
    rw [List.find?_eq_none]
    intro p hp
    have hp' : p ∈ processes := by
      have h1 : p ∈ compilation_processes processes :=
        List.mem_reverse.mp hp
      rw [compilation_processes] at h1
      have h2 := (mem_sortByKey (fun q => q.created) _ p).mp h1
      exact List.mem_of_mem_filter h2
    intro hcontra
    rw [Bool.and_eq_true, beq_iff_eq, beq_iff_eq] at hcontra
    exact hnoreq p hp' ⟨hcontra.1, hcontra.2⟩
  simp only [Compilation.from_processes, hlast]
  rcases hsplit : split_on_double_colon latest.process_identifier with
    _ | ⟨a, _ | ⟨b, _ | ⟨c, _ | _⟩⟩⟩ <;>
    simp [hterm, hfind]

/-- C9 witness: a single SUCCEEDED compilation record with no REQUESTED
record reaches the error branch. -/
theorem from_processes_start_time_unassigned_witness :
    ∃ msg, Compilation.from_processes
        [{ creator := "svc", created := 1,
           process := ProcessStatus.Process.compilation,
           status := ProcessStatus.Status.succeeded,
           process_identifier := "a::b::c" }]
      = CompResult.error msg :=
  from_processes_start_time_unassigned
    [{ creator := "svc", created := 1,
       process := ProcessStatus.Process.compilation,
       status := ProcessStatus.Status.succeeded,
       process_identifier := "a::b::c" }]
    { creator := "svc", created := 1,
      process := ProcessStatus.Process.compilation,
      status := ProcessStatus.Status.succeeded,
      process_identifier := "a::b::c" }
    (by decide) (by decide) (by decide)

/-- C3 (amended): Compilation grouping with the backward scan: for a
submission whose compilation process-status records are, in timestamp
order, REQUESTED, REQUESTED, SUCCEEDED for identifier X followed by
REQUESTED, FAILED for a different identifier Y, the derived compilations
list has exactly two records; the first has `start_time` equal to the
timestamp of the LATEST (second) REQUESTED record — the backward scan of
`from_processes` stops at the most recent REQUESTED record, not the
earliest — and `end_time` equal to the SUCCEEDED record's timestamp, and
the second is FAILED. -/
theorem compilation_grouping_latest_requested
    (s : Submission) (c1 c2 c3 c4 c5 : Agent) (t1 t2 t3 t4 t5 : Nat)
    (idX idY sx cx fx sy cy fy : String)
    (h12 : t1 < t2) (h23 : t2 < t3) (h34 : t3 < t4) (h45 : t4 < t5)
    (hxy : idX ≠ idY)
    (hsplitX : split_on_double_colon idX = [sx, cx, fx])
    (hsplitY : split_on_double_colon idY = [sy, cy, fy])
    (hproc : s.processes =
      [⟨c1, t1, ProcessStatus.Process.compilation,
         ProcessStatus.Status.requested, idX⟩,
       ⟨c2, t2, ProcessStatus.Process.compilation,
         ProcessStatus.Status.requested, idX⟩,
       ⟨c3, t3, ProcessStatus.Process.compilation,
         ProcessStatus.Status.succeeded, idX⟩,
       ⟨c4, t4, ProcessStatus.Process.compilation,
         ProcessStatus.Status.requested, idY⟩,
       ⟨c5, t5, ProcessStatus.Process.compilation,
         ProcessStatus.Status.failed, idY⟩]) :
    s.get_compilations =
      [CompResult.ok ⟨sx, cx, fx, t2, some t3, Compilation.Status.succeeded⟩,
       CompResult.ok ⟨sy, cy, fy, t4, some t5, Compilation.Status.failed⟩] := by
  have hxx : (idX == idX) = true := by simp
  have hyy : (idY == idY) = true := by simp
  have hrun1 : Compilation.from_processes
      [⟨c1, t1, ProcessStatus.Process.compilation,
         ProcessStatus.Status.requested, idX⟩,
       ⟨c2, t2, ProcessStatus.Process.compilation,
         ProcessStatus.Status.requested, idX⟩,
       ⟨c3, t3, ProcessStatus.Process.compilation,
         ProcessStatus.Status.succeeded, idX⟩]
      = CompResult.ok ⟨sx, cx, fx, t2, some t3,
          Compilation.Status.succeeded⟩ := by
    have hcp : compilation_processes
        [⟨c1, t1, ProcessStatus.Process.compilation,
           ProcessStatus.Status.requested, idX⟩,
         ⟨c2, t2, ProcessStatus.Process.compilation,
           ProcessStatus.Status.requested, idX⟩,
         ⟨c3, t3, ProcessStatus.Process.compilation,
           ProcessStatus.Status.succeeded, idX⟩]
        = [⟨c1, t1, ProcessStatus.Process.compilation,
             ProcessStatus.Status.requested, idX⟩,
           ⟨c2, t2, ProcessStatus.Process.compilation,
             ProcessStatus.Status.requested, idX⟩,
           ⟨c3, t3, ProcessStatus.Process.compilation,
             ProcessStatus.Status.succeeded, idX⟩] := by
      rw [compilation_processes]
      rw [show List.filter
          (fun p => p.process == ProcessStatus.Process.compilation)
          [(⟨c1, t1, ProcessStatus.Process.compilation,
             ProcessStatus.Status.requested, idX⟩ : ProcessStatus),
           ⟨c2, t2, ProcessStatus.Process.compilation,
             ProcessStatus.Status.requested, idX⟩,
           ⟨c3, t3, ProcessStatus.Process.compilation,
             ProcessStatus.Status.succeeded, idX⟩]
          = [⟨c1, t1, ProcessStatus.Process.compilation,
               ProcessStatus.Status.requested, idX⟩,
             ⟨c2, t2, ProcessStatus.Process.compilation,
               ProcessStatus.Status.requested, idX⟩,
             ⟨c3, t3, ProcessStatus.Process.compilation,
               ProcessStatus.Status.succeeded, idX⟩] from rfl]
      apply sortByKey_of_pairwise
      simp [List.pairwise_cons]
      omega
    simp only [Compilation.from_processes, hcp]
    rw [show ([⟨c1, t1, ProcessStatus.Process.compilation,
         ProcessStatus.Status.requested, idX⟩,
       ⟨c2, t2, ProcessStatus.Process.compilation,
         ProcessStatus.Status.requested, idX⟩,
       ⟨c3, t3, ProcessStatus.Process.compilation,
         ProcessStatus.Status.succeeded, idX⟩] :
        List ProcessStatus).getLast?
      = some ⟨c3, t3, ProcessStatus.Process.compilation,
          ProcessStatus.Status.succeeded, idX⟩ from rfl]
    simp only [hsplitX, ProcessStatus.Status.is_finished, List.reverse,
      List.find?, hxx, status_map]
    simp [List.reverseAux, List.find?, hxx]
    rfl
  have hrun2 : Compilation.from_processes
      [⟨c4, t4, ProcessStatus.Process.compilation,
         ProcessStatus.Status.requested, idY⟩,
       ⟨c5, t5, ProcessStatus.Process.compilation,
         ProcessStatus.Status.failed, idY⟩]
      = CompResult.ok ⟨sy, cy, fy, t4, some t5,
          Compilation.Status.failed⟩ := by
    have hcp : compilation_processes
        [⟨c4, t4, ProcessStatus.Process.compilation,
           ProcessStatus.Status.requested, idY⟩,
         ⟨c5, t5, ProcessStatus.Process.compilation,
           ProcessStatus.Status.failed, idY⟩]
        = [⟨c4, t4, ProcessStatus.Process.compilation,
             ProcessStatus.Status.requested, idY⟩,
           ⟨c5, t5, ProcessStatus.Process.compilation,
             ProcessStatus.Status.failed, idY⟩] := by
      rw [compilation_processes]
      rw [show List.filter
          (fun p => p.process == ProcessStatus.Process.compilation)
          [(⟨c4, t4, ProcessStatus.Process.compilation,
             ProcessStatus.Status.requested, idY⟩ : ProcessStatus),
           ⟨c5, t5, ProcessStatus.Process.compilation,
             ProcessStatus.Status.failed, idY⟩]
          = [⟨c4, t4, ProcessStatus.Process.compilation,
               ProcessStatus.Status.requested, idY⟩,
             ⟨c5, t5, ProcessStatus.Process.compilation,
               ProcessStatus.Status.failed, idY⟩] from rfl]
      apply sortByKey_of_pairwise
      simp [List.pairwise_cons]
      omega
    simp only [Compilation.from_processes, hcp]
    rw [show ([⟨c4, t4, ProcessStatus.Process.compilation,
         ProcessStatus.Status.requested, idY⟩,
       ⟨c5, t5, ProcessStatus.Process.compilation,
         ProcessStatus.Status.failed, idY⟩] :
        List ProcessStatus).getLast?
      = some ⟨c5, t5, ProcessStatus.Process.compilation,
          ProcessStatus.Status.failed, idY⟩ from rfl]
    simp only [hsplitY, ProcessStatus.Status.is_finished, List.reverse,
      List.find?, hyy, status_map]
    simp [List.reverseAux, List.find?, hyy]
    rfl
  have hsort : sortByKey (fun p => p.created)
      [(⟨c1, t1, ProcessStatus.Process.compilation,
         ProcessStatus.Status.requested, idX⟩ : ProcessStatus),
       ⟨c2, t2, ProcessStatus.Process.compilation,
         ProcessStatus.Status.requested, idX⟩,
       ⟨c3, t3, ProcessStatus.Process.compilation,
         ProcessStatus.Status.succeeded, idX⟩,
       ⟨c4, t4, ProcessStatus.Process.compilation,
         ProcessStatus.Status.requested, idY⟩,
       ⟨c5, t5, ProcessStatus.Process.compilation,
         ProcessStatus.Status.failed, idY⟩]
      = [⟨c1, t1, ProcessStatus.Process.compilation,
           ProcessStatus.Status.requested, idX⟩,
         ⟨c2, t2, ProcessStatus.Process.compilation,
           ProcessStatus.Status.requested, idX⟩,
         ⟨c3, t3, ProcessStatus.Process.compilation,
           ProcessStatus.Status.succeeded, idX⟩,
         ⟨c4, t4, ProcessStatus.Process.compilation,
           ProcessStatus.Status.requested, idY⟩,
         ⟨c5, t5, ProcessStatus.Process.compilation,
           ProcessStatus.Status.failed, idY⟩] := by
    apply sortByKey_of_pairwise
    simp [List.pairwise_cons]
    omega
  simp only [Submission.get_compilations, hproc, hsort]
  simp only [get_compilations_aux, List.getLast?, ProcessStatus.Status.is_finished,
    hxx, hyy]
  simp [hrun1, hrun2, get_compilations_aux, List.getLast?,
    ProcessStatus.Status.is_finished, hxx, hyy, hxy]

/-- C3 counterexample: on the concrete stream REQUESTED(t=1),
REQUESTED(t=2), SUCCEEDED(t=3) for "x1::ck::pdf" then REQUESTED(t=4),
FAILED(t=5) for "y2::ck::pdf", the first derived Compilation has
`start_time` 2 (the latest REQUESTED record), not 1 (the earliest) as the
claim states. -/
theorem compilation_grouping_counterexample :
    (Submission.get_compilations
        { creator := "u", owner := "u",
          processes :=
            [⟨"s", 1, ProcessStatus.Process.compilation,
               ProcessStatus.Status.requested, "x1::ck::pdf"⟩,
             ⟨"s", 2, ProcessStatus.Process.compilation,
               ProcessStatus.Status.requested, "x1::ck::pdf"⟩,
             ⟨"s", 3, ProcessStatus.Process.compilation,
               ProcessStatus.Status.succeeded, "x1::ck::pdf"⟩,
             ⟨"s", 4, ProcessStatus.Process.compilation,
               ProcessStatus.Status.requested, "y2::ck::pdf"⟩,
             ⟨"s", 5, ProcessStatus.Process.compilation,
               ProcessStatus.Status.failed, "y2::ck::pdf"⟩],
          versions := [] }
      = [CompResult.ok ⟨"x1", "ck", "pdf", 2, some 3,
           Compilation.Status.succeeded⟩,
         CompResult.ok ⟨"y2", "ck", "pdf", 4, some 5,
           Compilation.Status.failed⟩])
    ∧ ¬ (Submission.get_compilations
        { creator := "u", owner := "u",
          processes :=
            [⟨"s", 1, ProcessStatus.Process.compilation,
               ProcessStatus.Status.requested, "x1::ck::pdf"⟩,
             ⟨"s", 2, ProcessStatus.Process.compilation,
               ProcessStatus.Status.requested, "x1::ck::pdf"⟩,
             ⟨"s", 3, ProcessStatus.Process.compilation,
               ProcessStatus.Status.succeeded, "x1::ck::pdf"⟩,
             ⟨"s", 4, ProcessStatus.Process.compilation,
               ProcessStatus.Status.requested, "y2::ck::pdf"⟩,
             ⟨"s", 5, ProcessStatus.Process.compilation,
               ProcessStatus.Status.failed, "y2::ck::pdf"⟩],
          versions := [] }
      = [CompResult.ok ⟨"x1", "ck", "pdf", 1, some 3,
           Compilation.Status.succeeded⟩,
         CompResult.ok ⟨"y2", "ck", "pdf", 4, some 5,
           Compilation.Status.failed⟩]) := by
  constructor
  · decide
  · decide

/-- C3 witness: the amended grouping theorem applied at the concrete
stream with timestamps 1..5. -/
theorem compilation_grouping_latest_requested_witness :
    Submission.get_compilations
        { creator := "u", owner := "u",
          processes :=
            [⟨"s", 1, ProcessStatus.Process.compilation,
               ProcessStatus.Status.requested, "x1::ck::pdf"⟩,
             ⟨"s", 2, ProcessStatus.Process.compilation,
               ProcessStatus.Status.requested, "x1::ck::pdf"⟩,
             ⟨"s", 3, ProcessStatus.Process.compilation,
               ProcessStatus.Status.succeeded, "x1::ck::pdf"⟩,
             ⟨"s", 4, ProcessStatus.Process.compilation,
               ProcessStatus.Status.requested, "y2::ck::pdf"⟩,
             ⟨"s", 5, ProcessStatus.Process.compilation,
               ProcessStatus.Status.failed, "y2::ck::pdf"⟩],
          versions := [] }
      = [CompResult.ok ⟨"x1", "ck", "pdf", 2, some 3,
           Compilation.Status.succeeded⟩,
         CompResult.ok ⟨"y2", "ck", "pdf", 4, some 5,
           Compilation.Status.failed⟩] :=
  compilation_grouping_latest_requested
    { creator := "u", owner := "u",
      processes :=
        [⟨"s", 1, ProcessStatus.Process.compilation,
           ProcessStatus.Status.requested, "x1::ck::pdf"⟩,
         ⟨"s", 2, ProcessStatus.Process.compilation,
           ProcessStatus.Status.requested, "x1::ck::pdf"⟩,
         ⟨"s", 3, ProcessStatus.Process.compilation,
           ProcessStatus.Status.succeeded, "x1::ck::pdf"⟩,
         ⟨"s", 4, ProcessStatus.Process.compilation,
           ProcessStatus.Status.requested, "y2::ck::pdf"⟩,
         ⟨"s", 5, ProcessStatus.Process.compilation,
           ProcessStatus.Status.failed, "y2::ck::pdf"⟩],
      versions := [] }
    "s" "s" "s" "s" "s" 1 2 3 4 5 "x1::ck::pdf" "y2::ck::pdf"
    "x1" "ck" "pdf" "y2" "ck" "pdf"
    (by decide) (by decide) (by decide) (by decide) (by decide)
    (by decide) (by decide) rfl

/-- Pairwise relations can be weakened using membership. -/
theorem pairwise_imp_of_mem_list {α : Type} {R S : α → α → Prop} :
    ∀ l : List α, (∀ a b, a ∈ l → b ∈ l → R a b → S a b) →
      List.Pairwise R l → List.Pairwise S l := by
  intro l
  induction l with
  | nil => intro _ _; exact List.Pairwise.nil
  | cons a t ih =>
    intro h hp
    rw [List.pairwise_cons] at hp ⊢
    constructor
    · intro b hb
      exact h a b (List.mem_cons_self a t) (List.mem_cons_of_mem a hb)
        (hp.1 b hb)
    · exact ih (fun x y hx hy =>
        h x y (List.mem_cons_of_mem a hx) (List.mem_cons_of_mem a hy)) hp.2

/-- Membership in the merge, when events with equal identifiers are
equal. -/
theorem mem_mergeEvents (x : Event) (prior events : List Event)
    (hinj : ∀ a ∈ prior ++ events, ∀ b ∈ prior ++ events,
      event_id a = event_id b → a = b) :
    x ∈ mergeEvents prior events ↔ x ∈ prior ++ events := by
  rw [mergeEvents, mem_sortByKey, mem_dedupById x (prior ++ events) hinj]

/-- Under pairwise-distinct creation timestamps the merge is strictly
sorted by timestamp. -/
theorem pairwise_lt_mergeEvents (prior events : List Event)
    (hdist : ∀ a ∈ prior ++ events, ∀ b ∈ prior ++ events,
      a ≠ b → a.created ≠ b.created) :
    List.Pairwise (fun a b => a.created < b.created)
      (mergeEvents prior events) := by
  have hle : List.Pairwise (fun a b : Event => a.created ≤ b.created)
      (mergeEvents prior events) := pairwise_sortByKey _ _
  have hne : List.Pairwise (fun a b : Event => event_id a ≠ event_id b)
      (mergeEvents prior events) := by
    rw [mergeEvents]
    exact (List.Perm.pairwise_iff (fun h => fun hc => h hc.symm)
      (sortByKey_perm (fun e => e.created) (dedupById (prior ++ events)))).mpr
      (pairwise_ne_id_dedupByIdAux (prior ++ events) [])
  have hand := List.Pairwise.and hle hne
  refine pairwise_imp_of_mem_list _ ?_ hand
  intro a b ha hb hR
  have ha' : a ∈ prior ++ events := by
    simp only [mergeEvents] at ha
    have := (mem_sortByKey (fun e => e.created) _ a).mp ha
    exact mem_of_mem_dedupByIdAux a _ [] this
  have hb' : b ∈ prior ++ events := by
    simp only [mergeEvents] at hb
    have := (mem_sortByKey (fun e => e.created) _ b).mp hb
    exact mem_of_mem_dedupByIdAux b _ [] this
  have hab : a ≠ b := fun hc => hR.2 (by rw [hc])
  exact Nat.lt_of_le_of_ne hR.1 (hdist a ha' b hb' hab)

/-- C4 counterexample: two distinct events sharing the creation timestamp
5.  The sort key in `save` is the timestamp alone, so the merged order
follows enumeration order, not the event identifier: passing the events
in the two opposite orders yields different application orders. -/
theorem merge_tie_order_counterexample :
    mergeEvents []
        [{ creator := "u", created := 5,
           payload := EventPayload.request_withdrawal "a" },
         { creator := "u", created := 5,
           payload := EventPayload.request_withdrawal "b" }]
      ≠ mergeEvents []
        [{ creator := "u", created := 5,
           payload := EventPayload.request_withdrawal "b" },
         { creator := "u", created := 5,
           payload := EventPayload.request_withdrawal "a" }] := by
  decide

/-- C4 (amended): within one save call the merged events are applied in
ascending creation-timestamp order, but ties are NOT broken by event
identifier — they keep the merged-set enumeration order.  The application
order is deterministic and independent of the order the events were
passed in only when the creation timestamps of distinct events are
pairwise distinct. -/
theorem merge_ordering_discipline :
    (∀ prior events : List Event,
      List.Pairwise (fun a b => a.created ≤ b.created)
        (mergeEvents prior events))
    ∧ (∀ prior events events' : List Event,
        List.Perm events events' →
        (∀ a ∈ prior ++ events, ∀ b ∈ prior ++ events,
          a ≠ b → a.created ≠ b.created) →
        mergeEvents prior events = mergeEvents prior events') := by
  constructor
  · intro prior events
    exact pairwise_sortByKey _ _
  · intro prior events events' hperm hdist
    have hmemc : ∀ x : Event, x ∈ prior ++ events ↔ x ∈ prior ++ events' := by
      intro x
      simp only [List.mem_append]
      exact or_congr Iff.rfl hperm.mem_iff
    have hinj : ∀ a ∈ prior ++ events, ∀ b ∈ prior ++ events,
        event_id a = event_id b → a = b := by
      intro a ha b hb hid
      by_contra hab
      have : a.created = b.created := congrArg (fun p => p.2.1) hid
      exact hdist a ha b hb hab this
    have hdist' : ∀ a ∈ prior ++ events', ∀ b ∈ prior ++ events',
        a ≠ b → a.created ≠ b.created := by
      intro a ha b hb
      exact hdist a ((hmemc a).mpr ha) b ((hmemc b).mpr hb)
    have hinj' : ∀ a ∈ prior ++ events', ∀ b ∈ prior ++ events',
        event_id a = event_id b → a = b := by
      intro a ha b hb
      exact hinj a ((hmemc a).mpr ha) b ((hmemc b).mpr hb)
    refine eq_of_mem_iff_of_pairwise_lt (fun e => e.created) _ _ ?_ ?_ ?_
    · intro x
      rw [mem_mergeEvents x prior events hinj,
        mem_mergeEvents x prior events' hinj']
      exact hmemc x
    · exact pairwise_lt_mergeEvents prior events hdist
    · exact pairwise_lt_mergeEvents prior events' hdist'

/-- C4 witness: with distinct timestamps 1 and 2, the merge is the same
for both argument orders. -/
theorem merge_ordering_discipline_witness :
    mergeEvents []
        [{ creator := "u", created := 1,
           payload := EventPayload.request_withdrawal "a" },
         { creator := "u", created := 2,
           payload := EventPayload.request_withdrawal "b" }]
      = mergeEvents []
        [{ creator := "u", created := 2,
           payload := EventPayload.request_withdrawal "b" },
         { creator := "u", created := 1,
           payload := EventPayload.request_withdrawal "a" }] :=
  merge_ordering_discipline.2 []
    [{ creator := "u", created := 1,
       payload := EventPayload.request_withdrawal "a" },
     { creator := "u", created := 2,
       payload := EventPayload.request_withdrawal "b" }]
    [{ creator := "u", created := 2,
       payload := EventPayload.request_withdrawal "b" },
     { creator := "u", created := 1,
       payload := EventPayload.request_withdrawal "a" }]
    (List.Perm.swap
      ({ creator := "u", created := 2,
         payload := EventPayload.request_withdrawal "b" } : Event)
      ({ creator := "u", created := 1,
         payload := EventPayload.request_withdrawal "a" } : Event) [])
    (by decide)

/-- When the merge-and-fold fails, `save_run` rolls the transaction back
and the durable store is unchanged. -/
theorem save_run_error_store (store prior : List Event)
    (rules : Event → Submission → List Event) (fuel : Nat)
    (events : List Event) (err : SaveError)
    (h : (save_run store prior rules fuel events).1 = Except.error err) :
    (save_run store prior rules fuel events).2 = store := by
  rcases hp : process_events rules fuel none (mergeEvents prior events)
      [] [] with e | ok
  · simp [save_run, hp]
  · simp [save_run, hp] at h

/-- C1: Atomicity of save: whenever `save` fails with InvalidEvent — in
particular whenever any event of the merged batch (original or
rule-derived) fails validation during the fold — the durable event store
after the call equals the store before it: no event of the batch is
persisted, and the prior state, being reconstructed from that store, is
unchanged.  This holds for every rule engine. -/
theorem save_atomicity (store : List Event)
    (rules : Event → Submission → List Event) (fuel : Nat)
    (events : List Event) (submission_id : Option Nat) (reason : String)
    (h : (save store rules fuel events submission_id).1
      = Except.error (SaveError.invalid_event reason)) :
    (save store rules fuel events submission_id).2 = store := by
  rcases events with _ | ⟨e0, rest⟩
  · simp [save]
  · rcases submission_id with _ | sid
    · by_cases hc : (e0.submission_id.isNone
          && !(e0.payload == EventPayload.create_submission)) = true
      · simp [save, hc]
      · simp only [save, hc, Bool.false_eq_true, if_false] at h ⊢
        exact save_run_error_store store [] rules fuel (e0 :: rest) _ h
    · by_cases hs : store.isEmpty = true
      · simp [save, hs]
      · simp only [save, hs, Bool.false_eq_true, if_false] at h ⊢
        exact save_run_error_store store store rules fuel (e0 :: rest) _ h

/-- C1 witness: a committed creation event in the store, then a save of a
RejectRequest for a non-existent request: the call fails with
InvalidEvent and the store is unchanged. -/
theorem save_atomicity_witness :
    ((save
        [{ creator := "u", created := 0, committed := true,
           payload := EventPayload.create_submission }]
        (fun _ _ => []) 10
        [{ creator := "u", created := 1,
           payload := EventPayload.reject_request (some "nope") }]
        (some 1)).1
      = Except.error (SaveError.invalid_event "No such request"))
    ∧ (save
        [{ creator := "u", created := 0, committed := true,
           payload := EventPayload.create_submission }]
        (fun _ _ => []) 10
        [{ creator := "u", created := 1,
           payload := EventPayload.reject_request (some "nope") }]
        (some 1)).2
      = [{ creator := "u", created := 0, committed := true,
           payload := EventPayload.create_submission }] :=
  ⟨rfl,
    save_atomicity
      [{ creator := "u", created := 0, committed := true,
         payload := EventPayload.create_submission }]
      (fun _ _ => []) 10
      [{ creator := "u", created := 1,
         payload := EventPayload.reject_request (some "nope") }]
      (some 1) "No such request" rfl⟩
